import Mathlib

/-!
Verification of the epoch-rejection editor's document/history subsystem of
Eelbrain (files `src/eelbrain/_wxgui/history.py` and
`src/eelbrain/_wxgui/select_epochs.py`).

The Python classes are shallowly embedded as Lean structures; mutating
methods become functions returning the new state.  GUI callbacks cannot be
modelled as side effects, so subscriber lists hold opaque callback
identifiers (`Nat`) and every operation additionally returns the list of
notifications it emits, in the order the Python code invokes the callbacks.
Python exceptions are modelled by an `Option String`/`Except String` error
component: a `some`/`.error` result corresponds to the method raising, with
the pre-call state unchanged (in the Python code every `raise` statement
relevant here executes before any mutation).
-/

namespace Eelbrain

/-- A notification event: which registered callback is invoked, with which
argument.  `caseChange c i` models calling case-change subscriber `c` with
index `i`; the other constructors model the argument-less callback loops. -/
inductive Notif where
  | caseChange (cb : Nat) (index : Nat)
  | badChsChange (cb : Nat)
  | pathChange (cb : Nat)
  | savedChange (cb : Nat)
deriving DecidableEq, Repr

/-- Insert into a sorted list; helper for `sortNat`. -/
def insertSorted (x : Nat) : List Nat → List Nat
  | [] => [x]
  | y :: ys => if x ≤ y then x :: y :: ys else y :: insertSorted x ys

/-- Model of Python's builtin `sorted` on a list of ints (ascending). -/
def sortNat : List Nat → List Nat
  | [] => []
  | x :: xs => insertSorted x (sortNat xs)

/-- Helper for `splitext`: index of the last occurrence of a character. -/
def lastIdxOf (c : Char) : List Char → Option Nat
  | [] => none
  | x :: xs =>
    match lastIdxOf c xs with
    | some i => some (i + 1)
    | none => if x = c then some 0 else none

/-- Model of `os.path.splitext` (posix): the extension starts at the last
dot that lies after the last path separator, provided at least one non-dot
character of the basename precedes it (so ".txt" alone has no extension). -/
def splitext (p : String) : String × String :=
  let l := p.toList
  let sepIdx : Int := match lastIdxOf '/' l with | some i => (i : Int) | none => -1
  match lastIdxOf '.' l with
  | none => (p, "")
  | some d =>
    if sepIdx < (d : Int) ∧
        (List.range d).any (fun k => decide (sepIdx < (k : Int) ∧ l.getD k '.' ≠ '.')) then
      (String.mk (l.take d), String.mk (l.drop d))
    else (p, "")

/-- The path normalization performed by `Document.set_path`
(select_epochs.py lines 337-349): an empty extension is replaced by
".txt", otherwise the path is kept as given. -/
def normPath (p : String) : String :=
  let root := (splitext p).1
  let ext := (splitext p).2
  if ext = "" then root ++ ".txt" else p

/-- State of `select_epochs.Document` (which extends `FileDocument`).
Scientific array containers (`Var`, `Factor`, `Datalist`) are modelled as
Lean lists; `len(self.epochs.sensor)` is the field `n_sensors`.  The pure
memoization cache `_good_sensor_indices` (derived data, cleared on every
bad-channel change) and the raw epoch data are not modelled.  Subscriber
lists hold opaque callback identifiers. -/
structure Document where
  n_epochs : Nat
  n_sensors : Nat
  accept : List Bool
  tag : List String
  interpolate : List (List String)
  trigger : List Int
  bad_channels : List Nat
  good_channels : Option (List Nat)
  path : Option String
  saved : Bool
  allow_interpolation : Bool
  bad_chs_subs : List Nat
  case_subs : List Nat
  path_subs : List Nat
deriving DecidableEq, Repr

namespace Document

/-- Model of `Document.set_case` (select_epochs.py lines 326-335): update the fields
given as non-`None`, then invoke every case-change subscriber with the
index. -/
def set_case (d : Document) (i : Nat) (state : Option Bool) (tag : Option String)
    (interpolate : Option (List String)) : Document × List Notif :=
  let d := match state with
    | some s => { d with accept := d.accept.set i s }
    | none => d
  let d := match tag with
    | some t => { d with tag := d.tag.set i t }
    | none => d
  let d := match interpolate with
    | some ip => { d with interpolate := d.interpolate.set i ip }
    | none => d
  (d, d.case_subs.map (fun c => Notif.caseChange c i))

/-- Model of `Document.set_bad_channels` (select_epochs.py lines 302-321): sort the
indexes, return unchanged (no callbacks) if they equal the current bad
channels, otherwise store them, recompute `good_channels`
(`np.setdiff1d(np.arange(n_sensors), indexes, True)`, i.e. the ascending
list of sensor indices not among the bad ones, or `None` when no channel is
bad) and invoke every bad-channels subscriber. -/
def set_bad_channels (d : Document) (indexes : List Nat) : Document × List Notif :=
  let idx := sortNat indexes
  if idx = d.bad_channels then (d, [])
  else
    let good : Option (List Nat) :=
      if idx = [] then none
      else some ((List.range d.n_sensors).filter (fun i => decide (i ∉ idx)))
    ({ d with bad_channels := idx, good_channels := good },
     d.bad_chs_subs.map Notif.badChsChange)

/-- Model of `Document.set_path` (select_epochs.py lines 337-349) composed with
`FileDocument.set_path` (history.py lines 136-139): normalize the
extension, store the path, and invoke every path-change subscriber. -/
def set_path (d : Document) (p : String) : Document × List Notif :=
  ({ d with path := some (normPath p) }, d.path_subs.map Notif.pathChange)

/-- Model of `Document.save` (select_epochs.py lines 436-450) with the actual file
write treated as opaque: it succeeds exactly when the current path has a
supported extension, otherwise raises `ValueError`. -/
def save (d : Document) : Except String Unit :=
  match d.path with
  | none => .error "TypeError: path is None"
  | some p =>
    let ext := (splitext p).2
    if ext = ".pickled" then .ok ()
    else if ext = ".txt" then .ok ()
    else .error "Unsupported extension"

end Document

/-- Model of `select_epochs.ChangeAction` (lines 85-128): a do/undo command holding
the old and new values of the document fields it touches. -/
structure ChangeAction where
  desc : String
  index : Option Nat
  old_accept : Option Bool
  new_accept : Option Bool
  old_tag : Option String
  new_tag : Option String
  old_interpolate : Option (List String)
  new_interpolate : Option (List String)
  old_path : Option String
  new_path : Option String
  old_bad_chs : Option (List Nat)
  new_bad_chs : Option (List Nat)
deriving DecidableEq, Repr, Inhabited

namespace ChangeAction

/-- Model of `ChangeAction.do` (select_epochs.py lines 112-119).  (`do` is a Lean
keyword, hence the prime.) -/
def do' (a : ChangeAction) (doc : Document) : Document × List Notif :=
  let r1 := match a.index with
    | some i => doc.set_case i a.new_accept a.new_tag a.new_interpolate
    | none => (doc, [])
  let r2 := match a.new_path with
    | some p => r1.1.set_path p
    | none => (r1.1, [])
  let r3 := match a.new_bad_chs with
    | some bc => r2.1.set_bad_channels bc
    | none => (r2.1, [])
  (r3.1, r1.2 ++ r2.2 ++ r3.2)

/-- Model of `ChangeAction.undo` (select_epochs.py lines 121-128).  The path is
restored only when both `new_path` and `old_path` are set; the bad channels
are restored whenever `new_bad_chs` is set.  In Python,
`set_bad_channels(None)` (reachable when `new_bad_chs` is set but
`old_bad_chs` is `None`) would raise `TypeError` inside `sorted`; that
branch is modelled as a no-op, and no theorem below depends on it. -/
def undo (a : ChangeAction) (doc : Document) : Document × List Notif :=
  let r1 := match a.index with
    | some i => doc.set_case i a.old_accept a.old_tag a.old_interpolate
    | none => (doc, [])
  let r2 := match a.new_path, a.old_path with
    | some _, some p => r1.1.set_path p
    | _, _ => (r1.1, [])
  let r3 := match a.new_bad_chs with
    | some _ =>
      match a.old_bad_chs with
      | some bc => r2.1.set_bad_channels bc
      | none => (r2.1, [])
    | none => (r2.1, [])
  (r3.1, r1.2 ++ r2.2 ++ r3.2)

end ChangeAction

/-- State of `history.History`: the document it manages, the action list
`_history`, the pointer `_last_action_idx` to the last executed action
(a Python int, always negative in reachable states), the saved watermark
`_saved_idx`, and the saved-change subscriber list. -/
structure History where
  doc : Document
  hist : List ChangeAction
  last : Int
  saved : Int
  saved_subs : List Nat
deriving Repr

/-- Result of `History.undo`/`History.redo`: the new history state, the
emitted notifications, the action that was executed (mirroring the local
variable `action` in the Python code), and the raised exception if any.
A raising call returns the unchanged input state with no notifications,
matching Python where the `raise` precedes every mutation. -/
structure Step where
  history : History
  notifs : List Notif
  action : Option ChangeAction
  err : Option String

namespace History

/-- Model of `History.__init__` (history.py lines 40-47). -/
def init (doc : Document) : History :=
  { doc := doc, hist := [], last := -1, saved := -1, saved_subs := [] }

/-- Model of `History.can_redo` (history.py lines 49-50). -/
def can_redo (h : History) : Bool :=
  h.last < -1

/-- Model of `History.can_undo` (history.py lines 52-53). -/
def can_undo (h : History) : Bool :=
  (h.hist.length : Int) + h.last ≥ 0

/-- Model of `History.is_saved` (history.py lines 83-94). -/
def is_saved (h : History) : Bool :=
  let ci : Int := (h.hist.length : Int) + h.last
  if ci = -1 ∧ h.saved < 0 then true
  else decide (h.saved = ci)

/-- Model of `History._process_saved_change` (history.py lines 69-81): if the saved
status changed, update `doc.saved` and invoke every saved-change
subscriber. -/
def process_saved_change (h : History) (was : Bool) : History × List Notif :=
  if h.is_saved ≠ was then
    ({ h with doc := { h.doc with saved := h.is_saved } },
     h.saved_subs.map Notif.savedChange)
  else (h, [])

/-- Model of `History.do` (history.py lines 55-67): execute the action on the
document, discard the alternate future when undone actions exist (slicing
`_history[:_last_action_idx + 1]` and resetting `_saved_idx` when it no
longer points into the history), append the action, and process the saved
change.  (`do` is a Lean keyword, hence the prime.) -/
def do' (h : History) (a : ChangeAction) : History × List Notif :=
  let was := h.is_saved
  let r1 := a.do' h.doc
  let h1 : History :=
    if h.last < -1 then
      let hist2 := h.hist.take ((h.hist.length : Int) + h.last + 1).toNat
      { doc := r1.1, hist := hist2, last := -1,
        saved := if h.saved ≥ (hist2.length : Int) then -1 else h.saved,
        saved_subs := h.saved_subs }
    else { h with doc := r1.1 }
  let h2 := { h1 with hist := h1.hist ++ [a] }
  let r2 := h2.process_saved_change was
  (r2.1, r1.2 ++ r2.2)

/-- Model of `History.undo` (history.py lines 117-126): raise `RuntimeError` at the
beginning of the history, otherwise undo `_history[_last_action_idx]`
(a negative Python index, i.e. the element at `len + last`) and decrement
the pointer. -/
def undo (h : History) : Step :=
  let was := h.is_saved
  if -h.last > (h.hist.length : Int) then
    ⟨h, [], none, some "We are at the beginning of the history"⟩
  else
    let a := h.hist.getD ((h.hist.length : Int) + h.last).toNat default
    let r1 := a.undo h.doc
    let h1 : History := { h with doc := r1.1, last := h.last - 1 }
    let r2 := h1.process_saved_change was
    ⟨r2.1, r1.2 ++ r2.2, some a, none⟩

/-- Model of `History.redo` (history.py lines 96-105): raise `RuntimeError` at the
tip of the history, otherwise re-do `_history[_last_action_idx + 1]` and
increment the pointer. -/
def redo (h : History) : Step :=
  let was := h.is_saved
  if h.last = -1 then
    ⟨h, [], none, some "We are at the tip of the history"⟩
  else
    let a := h.hist.getD ((h.hist.length : Int) + h.last + 1).toNat default
    let r1 := a.do' h.doc
    let h1 : History := { h with doc := r1.1, last := h.last + 1 }
    let r2 := h1.process_saved_change was
    ⟨r2.1, r1.2 ++ r2.2, some a, none⟩

/-- Model of `History.register_save` (history.py lines 107-111). -/
def register_save (h : History) : History × List Notif :=
  let was := h.is_saved
  let h1 : History := { h with saved := (h.hist.length : Int) + h.last }
  h1.process_saved_change was

/-- Reachable-state invariant of `History`: the pointer to the last
executed action is negative (source comment "point to last executed action
(always < 0)") and does not lie before the beginning of the history. -/
def Inv (h : History) : Prop :=
  h.last ≤ -1 ∧ -1 ≤ (h.hist.length : Int) + h.last

end History

/-- Model of `FileModel.save` (history.py lines 156-162): save the document, then
register the save with the history.  In Python `model.doc` and
`model.history.doc` alias the same object, so the model is represented by
its history (which contains the document). -/
def FileModel.save (h : History) : Except String (History × List Notif) :=
  match h.doc.save with
  | .error e => .error e
  | .ok _ => .ok h.register_save

/-- Model of `FileModel.save_as` (history.py lines 160-162): set the document's path
(`Document.set_path` normalizes the extension), then save. -/
def FileModel.save_as (h : History) (p : String) : Except String (History × List Notif) :=
  let r1 := h.doc.set_path p
  match FileModel.save { h with doc := r1.1 } with
  | .error e => .error e
  | .ok r2 => .ok (r2.1, r1.2 ++ r2.2)

/-! Concrete fixtures used by witnesses and counterexamples. -/

/-- A concrete document with one epoch and two sensors, no path, no
subscribers. -/
def d0 : Document :=
  { n_epochs := 1, n_sensors := 2, accept := [true], tag := [""],
    interpolate := [[]], trigger := [1], bad_channels := [],
    good_channels := none, path := none, saved := true,
    allow_interpolation := true, bad_chs_subs := [], case_subs := [],
    path_subs := [] }

/-- A concrete document with registered subscribers. -/
def dsub : Document :=
  { d0 with bad_chs_subs := [0, 1], case_subs := [2], path_subs := [3] }

/-- A concrete action rejecting epoch 0 (old values match `d0`). -/
def actA : ChangeAction :=
  { desc := "reject epoch 0", index := some 0,
    old_accept := some true, new_accept := some false,
    old_tag := some "", new_tag := some "A",
    old_interpolate := none, new_interpolate := none,
    old_path := none, new_path := none,
    old_bad_chs := none, new_bad_chs := none }

/-- A second concrete action rejecting epoch 0. -/
def actB : ChangeAction :=
  { actA with desc := "reject epoch 0 again", new_tag := some "B" }

/-- The run exhibiting the saved-watermark defect: do A, save, undo A,
do B (which truncates the future and resets `_saved_idx` to -1),
undo B. -/
def c2run : History :=
  let h1 := ((History.init d0).do' actA).1
  let h2 := h1.register_save.1
  let h3 := (h2.undo).history
  let h4 := (h3.do' actB).1
  (h4.undo).history

/-- The document state at the moment of the `register_save` call in
`c2run`. -/
def c2savedDoc : Document :=
  (((History.init d0).do' actA).1.register_save).1.doc

/-- A history from which both undo and redo are possible: do A, do B,
undo. -/
def hC1 : History :=
  ((((History.init d0).do' actA).1.do' actB).1.undo).history

/-! Helper lemmas. -/

/-- The helper `_process_saved_change` only ever touches `doc.saved` and emits
notifications; the action list, the pointer and the watermark are
untouched. -/
lemma process_saved_change_state (h : History) (was : Bool) :
    (h.process_saved_change was).1.hist = h.hist
    ∧ (h.process_saved_change was).1.last = h.last
    ∧ (h.process_saved_change was).1.saved = h.saved := by
  unfold History.process_saved_change
  split <;> simp

/-- Overwriting an element and then writing back its previous value
restores the list. -/
lemma set_set_getD (l : List α) (i : Nat) (v d : α) (h : i < l.length) :
    (l.set i v).set i (l.getD i d) = l := by
  induction l generalizing i with
  | nil => simp at h
  | cons x xs ih =>
    cases i with
    | zero => simp [List.set, List.getD]
    | succ n => simp_all [List.set, List.getD]

/-- Writing back an element's current value leaves the list unchanged. -/
lemma set_getD_self (l : List α) (i : Nat) (d : α) (h : i < l.length) :
    l.set i (l.getD i d) = l := by
  induction l generalizing i with
  | nil => simp at h
  | cons x xs ih =>
    cases i with
    | zero => simp [List.set, List.getD]
    | succ n => simp_all [List.set, List.getD]

/-- A freshly constructed history satisfies the invariant. -/
lemma Inv_init (d : Document) : (History.init d).Inv := by
  simp [History.init, History.Inv]

/-- Executing `do` preserves the history invariant. -/
lemma Inv_do' (h : History) (a : ChangeAction) (hi : h.Inv) : (h.do' a).1.Inv := by
  obtain ⟨h1, h2⟩ := hi
  unfold History.do'
  constructor
  · rw [(process_saved_change_state _ _).2.1]
    split <;> simp [h1]
  · rw [(process_saved_change_state _ _).2.1, (process_saved_change_state _ _).1]
    split <;> simp <;> omega

/-- Executing `undo` preserves the history invariant. -/
lemma Inv_undo (h : History) (hi : h.Inv) : (h.undo).history.Inv := by
  obtain ⟨h1, h2⟩ := hi
  unfold History.undo
  split
  · exact ⟨h1, h2⟩
  · rename_i hc
    constructor
    · rw [(process_saved_change_state _ _).2.1]
      simp only [History.Inv] at *
      omega
    · rw [(process_saved_change_state _ _).2.1, (process_saved_change_state _ _).1]
      simp only [History.Inv] at *
      omega

/-- Executing `redo` preserves the history invariant. -/
lemma Inv_redo (h : History) (hi : h.Inv) : (h.redo).history.Inv := by
  obtain ⟨h1, h2⟩ := hi
  unfold History.redo
  split
  · exact ⟨h1, h2⟩
  · rename_i hc
    constructor
    · rw [(process_saved_change_state _ _).2.1]
      simp only [History.Inv] at *
      omega
    · rw [(process_saved_change_state _ _).2.1, (process_saved_change_state _ _).1]
      simp only [History.Inv] at *
      omega

/-- Executing `register_save` preserves the history invariant. -/
lemma Inv_register_save (h : History) (hi : h.Inv) : (h.register_save).1.Inv := by
  obtain ⟨h1, h2⟩ := hi
  unfold History.register_save
  constructor
  · rw [(process_saved_change_state _ _).2.1]; exact h1
  · rw [(process_saved_change_state _ _).2.1, (process_saved_change_state _ _).1]
    exact h2

/-! Claims. -/

/-- C1.  Future truncation on new action: when `can_redo()` holds,
`do(action)` keeps exactly the first `len + last + 1` actions (the history
up to the current position, dropping the undone tail) and appends the new
action; afterwards `can_redo()` is false and the new action is the last in
the history. -/
theorem C1_future_truncation (h : History) (a : ChangeAction)
    (hr : h.can_redo = true) :
    (h.do' a).1.hist
        = h.hist.take ((h.hist.length : Int) + h.last + 1).toNat ++ [a]
    ∧ (h.do' a).1.can_redo = false
    ∧ (h.do' a).1.hist.getLast? = some a := by
  have hl : h.last < -1 := by simpa [History.can_redo] using hr
  have hh : (h.do' a).1.hist
      = h.hist.take ((h.hist.length : Int) + h.last + 1).toNat ++ [a] := by
    simp only [History.do', hl, if_true]
    rw [(process_saved_change_state _ _).1]
  have hlast : (h.do' a).1.last = -1 := by
    simp only [History.do', hl, if_true]
    rw [(process_saved_change_state _ _).2.1]
  refine ⟨hh, ?_, ?_⟩
  · simp [History.can_redo, hlast]
  · rw [hh]; simp

theorem C1_witness :
    hC1.can_redo = true
    ∧ ((hC1.do' actA).1.hist
          = hC1.hist.take ((hC1.hist.length : Int) + hC1.last + 1).toNat ++ [actA]
       ∧ (hC1.do' actA).1.can_redo = false
       ∧ (hC1.do' actA).1.hist.getLast? = some actA) :=
  ⟨by decide, C1_future_truncation hC1 actA (by decide)⟩

/-- C2.  The saved/dirty watermark is broken by future truncation: in the
run do A, register_save, undo, do B, undo, the final `is_saved()` is true
although the document (accept = [true]) differs from the state it had at
the most recent `register_save()` call (accept = [false]).  Truncation
reset `_saved_idx` to -1, which `is_saved` treats as "never saved". -/
theorem C2_saved_watermark_defect :
    c2run.is_saved = true
    ∧ c2savedDoc.accept = [false]
    ∧ c2run.doc.accept = [true]
    ∧ c2run.doc.accept ≠ c2savedDoc.accept := by
  refine ⟨by decide, by decide, by decide, by decide⟩

/-- C4.  Undo/redo round trip: when at least one action has been executed,
`undo()` succeeds, records the action at the current position, enables
redo, and the following `redo()` succeeds, re-executes exactly that action
and returns the pointer to its pre-undo value; moreover any legal `redo()`
applies the action immediately after the current position
(`_history[_last_action_idx + 1]`) and advances the pointer by one. -/
theorem C4_undo_redo_round_trip (h g : History) (hInv : h.Inv)
    (hu : h.can_undo = true) (hr : g.can_redo = true) :
    ((h.undo).err = none
     ∧ (h.undo).action
         = some (h.hist.getD ((h.hist.length : Int) + h.last).toNat default)
     ∧ (h.undo).history.can_redo = true
     ∧ ((h.undo).history.redo).err = none
     ∧ ((h.undo).history.redo).action = (h.undo).action
     ∧ ((h.undo).history.redo).history.last = h.last)
    ∧ ((g.redo).action
         = some (g.hist.getD ((g.hist.length : Int) + g.last + 1).toNat default)
       ∧ (g.redo).history.last = g.last + 1) := by
  have hcu : ((h.hist.length : Int) + h.last) >= 0 := by
    simpa [History.can_undo] using hu
  have hl : h.last <= -1 := hInv.1
  have hnc : ¬(-h.last > (h.hist.length : Int)) := by omega
  have hulast : (h.undo).history.last = h.last - 1 := by
    simp only [History.undo, if_neg hnc]
    rw [(process_saved_change_state _ _).2.1]
  have huhist : (h.undo).history.hist = h.hist := by
    simp only [History.undo, if_neg hnc]
    rw [(process_saved_change_state _ _).1]
  have huerr : (h.undo).err = none := by
    simp only [History.undo, if_neg hnc]
  have huact : (h.undo).action
      = some (h.hist.getD ((h.hist.length : Int) + h.last).toNat default) := by
    simp only [History.undo, if_neg hnc]
  have hcanredo : (h.undo).history.can_redo = true := by
    simp only [History.can_redo, hulast, decide_eq_true_eq]
    omega
  have hnr : ¬((h.undo).history.last = -1) := by omega
  have hrerr : ((h.undo).history.redo).err = none := by
    simp only [History.redo, if_neg hnr]
  have hidx : ((h.undo).history.hist.length : Int) + (h.undo).history.last + 1
      = (h.hist.length : Int) + h.last := by
    rw [huhist, hulast]; ring
  have harith : ((h.hist.length : Int) + (h.last - 1) + 1)
      = (h.hist.length : Int) + h.last := by ring
  have hract : ((h.undo).history.redo).action = (h.undo).action := by
    simp only [History.redo, if_neg hnr]
    rw [huact, huhist, hulast, harith]
  have hrlast : ((h.undo).history.redo).history.last = h.last := by
    simp only [History.redo, if_neg hnr]
    rw [(process_saved_change_state _ _).2.1]
    simp only [hulast]
    ring
  have hgl : g.last < -1 := by simpa [History.can_redo] using hr
  have hgn : ¬(g.last = -1) := by omega
  refine ⟨⟨huerr, huact, hcanredo, hrerr, hract, hrlast⟩, ?_, ?_⟩
  · simp only [History.redo, if_neg hgn]
  · simp only [History.redo, if_neg hgn]
    rw [(process_saved_change_state _ _).2.1]

theorem C4_witness :
    ((hC1.undo).err = none
     ∧ (hC1.undo).action
         = some (hC1.hist.getD ((hC1.hist.length : Int) + hC1.last).toNat default)
     ∧ (hC1.undo).history.can_redo = true
     ∧ ((hC1.undo).history.redo).err = none
     ∧ ((hC1.undo).history.redo).action = (hC1.undo).action
     ∧ ((hC1.undo).history.redo).history.last = hC1.last)
    ∧ ((hC1.redo).action
         = some (hC1.hist.getD ((hC1.hist.length : Int) + hC1.last + 1).toNat default)
       ∧ (hC1.redo).history.last = hC1.last + 1) :=
  C4_undo_redo_round_trip hC1 hC1 (by constructor <;> decide) (by decide) (by decide)

/-- C8.  Boundary atomicity: `undo()` raises `RuntimeError` exactly when
`can_undo()` is false and `redo()` raises exactly when `can_redo()` is
false; a raising call returns the history (action list, pointer, saved
watermark and document included) unchanged and invokes no callbacks. -/
theorem C8_boundary_atomicity (h : History) (hInv : h.Inv) :
    ((h.undo).err.isSome = true ↔ h.can_undo = false)
    ∧ ((h.undo).err.isSome = true → (h.undo).history = h ∧ (h.undo).notifs = [])
    ∧ ((h.redo).err.isSome = true ↔ h.can_redo = false)
    ∧ ((h.redo).err.isSome = true → (h.redo).history = h ∧ (h.redo).notifs = []) := by
  have hl : h.last <= -1 := hInv.1
  by_cases hcu : -h.last > (h.hist.length : Int)
  · have h1 : h.undo = ⟨h, [], none, some "We are at the beginning of the history"⟩ := by
      simp only [History.undo, if_pos hcu]
    have h2 : h.can_undo = false := by
      simp only [History.can_undo, decide_eq_false_iff_not]
      omega
    by_cases hcr : h.last = -1
    · have h3 : h.redo = ⟨h, [], none, some "We are at the tip of the history"⟩ := by
        simp only [History.redo, if_pos hcr]
      have h4 : h.can_redo = false := by
        simp only [History.can_redo, decide_eq_false_iff_not]; omega
      simp [h1, h2, h3, h4]
    · have h3 : (h.redo).err = none := by
        simp only [History.redo, if_neg hcr]
      have h4 : h.can_redo = true := by
        simp only [History.can_redo, decide_eq_true_eq]; omega
      simp [h1, h2, h3, h4]
  · have h1 : (h.undo).err = none := by
      simp only [History.undo, if_neg hcu]
    have h2 : h.can_undo = true := by
      simp only [History.can_undo, decide_eq_true_eq]; omega
    by_cases hcr : h.last = -1
    · have h3 : h.redo = ⟨h, [], none, some "We are at the tip of the history"⟩ := by
        simp only [History.redo, if_pos hcr]
      have h4 : h.can_redo = false := by
        simp only [History.can_redo, decide_eq_false_iff_not]; omega
      simp [h1, h2, h3, h4]
    · have h3 : (h.redo).err = none := by
        simp only [History.redo, if_neg hcr]
      have h4 : h.can_redo = true := by
        simp only [History.can_redo, decide_eq_true_eq]; omega
      simp [h1, h2, h3, h4]

theorem C8_witness :
    ((((History.init d0).undo).err.isSome = true ↔ (History.init d0).can_undo = false)
     ∧ (((History.init d0).undo).err.isSome = true →
          ((History.init d0).undo).history = History.init d0
          ∧ ((History.init d0).undo).notifs = [])
     ∧ (((History.init d0).redo).err.isSome = true ↔ (History.init d0).can_redo = false)
     ∧ (((History.init d0).redo).err.isSome = true →
          ((History.init d0).redo).history = History.init d0
          ∧ ((History.init d0).redo).notifs = [])) :=
  C8_boundary_atomicity (History.init d0) (by constructor <;> decide)

/-- C5.  Publish/subscribe synchronization: `set_case` invokes every
case-change subscriber with the changed index (it does so on every call,
in particular whenever it changes per-epoch state); `set_bad_channels`
invokes every bad-channels subscriber whenever it changes the bad-channel
set (i.e. whenever the sorted indexes differ from the current ones); and
`set_path` invokes every path-change subscriber on every call. -/
theorem C5_publish_subscribe (d e f : Document) (i : Nat) (s : Option Bool)
    (t : Option String) (ip : Option (List String)) (idx : List Nat)
    (p : String) (hch : sortNat idx ≠ e.bad_channels) :
    (d.set_case i s t ip).2 = d.case_subs.map (fun c => Notif.caseChange c i)
    ∧ (e.set_bad_channels idx).2 = e.bad_chs_subs.map Notif.badChsChange
    ∧ (f.set_path p).2 = f.path_subs.map Notif.pathChange := by
  refine ⟨?_, ?_, rfl⟩
  · cases s <;> cases t <;> cases ip <;> simp [Document.set_case]
  · simp only [Document.set_bad_channels, if_neg hch]

theorem C5_witness :
    (dsub.set_case 0 (some false) none none).2
        = dsub.case_subs.map (fun c => Notif.caseChange c 0)
    ∧ (dsub.set_bad_channels [1]).2 = dsub.bad_chs_subs.map Notif.badChsChange
    ∧ (dsub.set_path "a.txt").2 = dsub.path_subs.map Notif.pathChange :=
  C5_publish_subscribe dsub dsub dsub 0 (some false) none none [1] "a.txt"
    (by decide)

/-- Consistency of the derived `good_channels` field with `bad_channels`:
`good_channels` is `None` exactly when no channel is bad, and otherwise
lists exactly the sensor indices that are not bad. -/
def Document.GoodInv (d : Document) : Prop :=
  (d.good_channels = none ↔ d.bad_channels = [])
  ∧ ∀ g, d.good_channels = some g →
      g = (List.range d.n_sensors).filter (fun i => decide (i ∉ d.bad_channels))

/-- C9.  Bad-channel complement invariant: after `set_bad_channels`,
`bad_channels` is the sorted list of the given indexes; the
`good_channels` complement invariant is preserved; and a call whose sorted
indexes equal the current bad channels leaves the document unchanged and
invokes no callbacks. -/
theorem C9_bad_channel_invariant (d : Document) (idx : List Nat)
    (hInv : d.GoodInv) :
    (d.set_bad_channels idx).1.bad_channels = sortNat idx
    ∧ (d.set_bad_channels idx).1.GoodInv
    ∧ (sortNat idx = d.bad_channels → d.set_bad_channels idx = (d, [])) := by
  by_cases hc : sortNat idx = d.bad_channels
  · simp only [Document.set_bad_channels, if_pos hc]
    exact ⟨hc.symm, hInv, fun _ => trivial⟩
  · simp only [Document.set_bad_channels, if_neg hc]
    refine ⟨trivial, ⟨?_, ?_⟩, fun he => absurd he hc⟩
    · by_cases he : sortNat idx = [] <;> simp [he]
    · intro g hg
      by_cases he : sortNat idx = [] <;> simp [he] at hg ⊢
      exact hg.symm

theorem C9_witness :
    (dsub.set_bad_channels [1, 0]).1.bad_channels = sortNat [1, 0]
    ∧ (dsub.set_bad_channels [1, 0]).1.GoodInv
    ∧ (sortNat [1, 0] = dsub.bad_channels →
        dsub.set_bad_channels [1, 0] = (dsub, [])) :=
  C9_bad_channel_invariant dsub [1, 0]
    ⟨by decide, by intro g hg; simp [dsub, d0] at hg⟩

/-- Modelled fragment of `Document.__init__` (select_epochs.py lines
153-264): the dataset is abstracted to the values it may or may not
contain under the `accept`, `tag` and interpolation names (`none` models
"name not in ds"); when absent, `accept` defaults to `np.ones(n, bool)`,
`tag` to `Factor([''], repeat=n)` and the interpolation lists to empty
lists; `bad_chs`, when given, is applied through `set_bad_channels`
(`set_bad_channels_by_name` with the sensor-name lookup already resolved
to indices).  The type-validation raises, the `mne.Epochs`/blink handling
and the loading of an existing rejection file at `path` (file I/O, an
external dependency) are not modelled. -/
def mkDocument (n nsens : Nat) (accept_ds : Option (List Bool))
    (tag_ds : Option (List String))
    (interpolate_ds : Option (List (List String))) (trigger : List Int)
    (path : Option String) (bad_chs : Option (List Nat))
    (allow_interpolation : Bool) : Document :=
  let accept := match accept_ds with
    | some v => v
    | none => List.replicate n true
  let tag := match tag_ds with
    | some v => v
    | none => List.replicate n ""
  let interpolate := match interpolate_ds with
    | some v => v
    | none => List.replicate n []
  let d : Document :=
    { n_epochs := n, n_sensors := nsens, accept := accept, tag := tag,
      interpolate := interpolate, trigger := trigger, bad_channels := [],
      good_channels := none, path := path, saved := true,
      allow_interpolation := allow_interpolation, bad_chs_subs := [],
      case_subs := [], path_subs := [] }
  match bad_chs with
  | some l => (d.set_bad_channels l).1
  | none => d

/-- C10.  Default acceptance on construction: when the dataset contains
no accept variable and no tag variable, every one of the `n` epochs starts
accepted and carries the empty tag. -/
theorem C10_default_acceptance (n nsens : Nat) (accept_ds : Option (List Bool))
    (tag_ds : Option (List String))
    (interpolate_ds : Option (List (List String))) (trigger : List Int)
    (path : Option String) (bad_chs : Option (List Nat))
    (allow_interpolation : Bool) (hacc : accept_ds = none)
    (htag : tag_ds = none) :
    (mkDocument n nsens accept_ds tag_ds interpolate_ds trigger path bad_chs
        allow_interpolation).accept = List.replicate n true
    ∧ (mkDocument n nsens accept_ds tag_ds interpolate_ds trigger path bad_chs
        allow_interpolation).tag = List.replicate n ""
    ∧ (mkDocument n nsens accept_ds tag_ds interpolate_ds trigger path bad_chs
        allow_interpolation).n_epochs = n := by
  subst hacc htag
  cases bad_chs with
  | none => simp [mkDocument]
  | some l =>
    simp only [mkDocument, Document.set_bad_channels]
    split <;> simp

theorem C10_witness :
    (mkDocument 2 3 none none none [1, 2] none (some [0]) true).accept
        = List.replicate 2 true
    ∧ (mkDocument 2 3 none none none [1, 2] none (some [0]) true).tag
        = List.replicate 2 ""
    ∧ (mkDocument 2 3 none none none [1, 2] none (some [0]) true).n_epochs = 2 :=
  C10_default_acceptance 2 3 none none none [1, 2] none (some [0]) true rfl rfl

/-- Field-level description of `set_case`: it only touches `accept`, `tag`
and `interpolate`, each at the given index when the new value is not
`None`. -/
lemma set_case_fields (d : Document) (i : Nat) (s : Option Bool)
    (t : Option String) (ip : Option (List String)) :
    (d.set_case i s t ip).1.accept
        = (match s with | some v => d.accept.set i v | none => d.accept)
    ∧ (d.set_case i s t ip).1.tag
        = (match t with | some v => d.tag.set i v | none => d.tag)
    ∧ (d.set_case i s t ip).1.interpolate
        = (match ip with | some v => d.interpolate.set i v | none => d.interpolate)
    ∧ (d.set_case i s t ip).1.path = d.path
    ∧ (d.set_case i s t ip).1.bad_channels = d.bad_channels := by
  cases s <;> cases t <;> cases ip <;> exact ⟨rfl, rfl, rfl, rfl, rfl⟩

/-- Field-level description of `set_path`: it only touches `path`. -/
lemma set_path_fields (d : Document) (p : String) :
    (d.set_path p).1.accept = d.accept
    ∧ (d.set_path p).1.tag = d.tag
    ∧ (d.set_path p).1.interpolate = d.interpolate
    ∧ (d.set_path p).1.path = some (normPath p)
    ∧ (d.set_path p).1.bad_channels = d.bad_channels :=
  ⟨rfl, rfl, rfl, rfl, rfl⟩

/-- Field-level description of `set_bad_channels`: it only touches
`bad_channels` (and `good_channels`), and leaves `bad_channels` equal to
the sorted indexes in both branches. -/
lemma set_bad_channels_fields (d : Document) (idx : List Nat) :
    (d.set_bad_channels idx).1.accept = d.accept
    ∧ (d.set_bad_channels idx).1.tag = d.tag
    ∧ (d.set_bad_channels idx).1.interpolate = d.interpolate
    ∧ (d.set_bad_channels idx).1.path = d.path
    ∧ (d.set_bad_channels idx).1.bad_channels = sortNat idx := by
  unfold Document.set_bad_channels
  by_cases hc : sortNat idx = d.bad_channels <;> simp [hc]

/-- Field-level description of `ChangeAction.do` for actions carrying an
index. -/
lemma do_fields (a : ChangeAction) (d : Document) (i : Nat)
    (hidx : a.index = some i) :
    (a.do' d).1.accept
        = (match a.new_accept with | some v => d.accept.set i v | none => d.accept)
    ∧ (a.do' d).1.tag
        = (match a.new_tag with | some v => d.tag.set i v | none => d.tag)
    ∧ (a.do' d).1.interpolate
        = (match a.new_interpolate with
           | some v => d.interpolate.set i v
           | none => d.interpolate)
    ∧ (a.do' d).1.path
        = (match a.new_path with | some q => some (normPath q) | none => d.path)
    ∧ (a.do' d).1.bad_channels
        = (match a.new_bad_chs with
           | some bc => sortNat bc
           | none => d.bad_channels) := by
  simp only [ChangeAction.do', hidx]
  rcases a.new_path with _ | q <;> rcases a.new_bad_chs with _ | bc <;>
    simp [set_case_fields, set_path_fields, set_bad_channels_fields]

/-- Field-level description of `ChangeAction.undo` for actions carrying an
index: the path is restored only when both `new_path` and `old_path` are
set, the bad channels only when `new_bad_chs` is set. -/
lemma undo_fields (a : ChangeAction) (e : Document) (i : Nat)
    (hidx : a.index = some i) :
    (a.undo e).1.accept
        = (match a.old_accept with | some v => e.accept.set i v | none => e.accept)
    ∧ (a.undo e).1.tag
        = (match a.old_tag with | some v => e.tag.set i v | none => e.tag)
    ∧ (a.undo e).1.interpolate
        = (match a.old_interpolate with
           | some v => e.interpolate.set i v
           | none => e.interpolate)
    ∧ (a.undo e).1.path
        = (match a.new_path, a.old_path with
           | some _, some p0 => some (normPath p0)
           | _, _ => e.path)
    ∧ (a.undo e).1.bad_channels
        = (match a.new_bad_chs, a.old_bad_chs with
           | some _, some l => sortNat l
           | _, _ => e.bad_channels) := by
  simp only [ChangeAction.undo, hidx]
  rcases a.new_path with _ | q <;> rcases a.old_path with _ | p0 <;>
    rcases a.new_bad_chs with _ | nb <;> rcases a.old_bad_chs with _ | ob <;>
      simp [set_case_fields, set_path_fields, set_bad_channels_fields]

/-- The action exhibiting the path round-trip failure: its old fields all
equal the current values of `d0` (whose path is `None`), and it sets a new
path. -/
def actP : ChangeAction :=
  { desc := "set path", index := some 0,
    old_accept := some true, new_accept := none,
    old_tag := some "", new_tag := none,
    old_interpolate := some [], new_interpolate := none,
    old_path := none, new_path := some "x.txt",
    old_bad_chs := some [], new_bad_chs := none }

/-- C3 counterexample.  `actP` satisfies the claim's hypotheses on `d0`
(every old field equals the document's current value at index 0; in
particular `old_path = d0.path = None`), yet `do` followed by `undo`
leaves the path at the new value "x.txt" instead of restoring `None`:
`ChangeAction.undo` skips the path when `old_path` is `None`. -/
theorem C3_counterexample :
    actP.index = some 0
    ∧ actP.old_accept = some (d0.accept.getD 0 false)
    ∧ actP.old_tag = some (d0.tag.getD 0 "")
    ∧ actP.old_interpolate = some (d0.interpolate.getD 0 [])
    ∧ actP.old_path = d0.path
    ∧ actP.old_bad_chs = some d0.bad_channels
    ∧ (actP.undo (actP.do' d0).1).1.path = some "x.txt"
    ∧ d0.path = none := by
  refine ⟨rfl, by decide, by decide, by decide, by decide, by decide, by decide, rfl⟩

/-- C3 (amended).  Do/undo round trip: for every `ChangeAction` whose
`old_accept`, `old_tag`, `old_interpolate`, `old_path` and `old_bad_chs`
equal the document's current values at the action's (valid) index —
provided additionally that, when the action sets a new path, the current
path is not `None` and is invariant under the `set_path` extension
normalization, and that the current `bad_channels` list is sorted (as it
is in every reachable document) — applying `do` then `undo` restores
`accept`, `tag`, `interpolate`, `path` and `bad_channels`. -/
theorem C3_do_undo_round_trip (d : Document) (a : ChangeAction) (i : Nat)
    (hidx : a.index = some i)
    (hla : i < d.accept.length) (hlt : i < d.tag.length)
    (hli : i < d.interpolate.length)
    (ha : a.old_accept = some (d.accept.getD i false))
    (ht : a.old_tag = some (d.tag.getD i ""))
    (hip : a.old_interpolate = some (d.interpolate.getD i []))
    (hp : a.old_path = d.path)
    (hpe : ∀ q, a.new_path = some q → ∃ p0, d.path = some p0 ∧ normPath p0 = p0)
    (hb : a.old_bad_chs = some d.bad_channels)
    (hbs : sortNat d.bad_channels = d.bad_channels) :
    (a.undo (a.do' d).1).1.accept = d.accept
    ∧ (a.undo (a.do' d).1).1.tag = d.tag
    ∧ (a.undo (a.do' d).1).1.interpolate = d.interpolate
    ∧ (a.undo (a.do' d).1).1.path = d.path
    ∧ (a.undo (a.do' d).1).1.bad_channels = d.bad_channels := by
  obtain ⟨da, dt, di, dp, db⟩ := do_fields a d i hidx
  obtain ⟨ua, ut, ui, up, ub⟩ := undo_fields a ((a.do' d).1) i hidx
  refine ⟨?_, ?_, ?_, ?_, ?_⟩
  · rw [ua, ha, da]
    cases a.new_accept
    · exact set_getD_self _ _ _ hla
    · exact set_set_getD _ _ _ _ hla
  · rw [ut, ht, dt]
    cases a.new_tag
    · exact set_getD_self _ _ _ hlt
    · exact set_set_getD _ _ _ _ hlt
  · rw [ui, hip, di]
    cases a.new_interpolate
    · exact set_getD_self _ _ _ hli
    · exact set_set_getD _ _ _ _ hli
  · cases hnp : a.new_path with
    | none => simp only [up, hnp, dp]
    | some q =>
      obtain ⟨p0, hdp, hnorm⟩ := hpe q hnp
      rw [up, hnp, hp, hdp]
      simp [hnorm]
  · cases hnb : a.new_bad_chs with
    | none => simp only [ub, hnb, db]
    | some bc =>
      rw [ub, hnb, hb]
      exact hbs

/-- A concrete instance of the amended C3 round trip: an action changing
acceptance, tag, interpolation, path and bad channels at once on a
document whose path is set. -/
def dC3 : Document :=
  { d0 with path := some "a.txt", bad_channels := [1],
            good_channels := some [0] }

def actC3 : ChangeAction :=
  { desc := "change all", index := some 0,
    old_accept := some true, new_accept := some false,
    old_tag := some "", new_tag := some "bad",
    old_interpolate := some [], new_interpolate := some ["MEG 001"],
    old_path := some "a.txt", new_path := some "b.txt",
    old_bad_chs := some [1], new_bad_chs := some [0] }

theorem C3_witness :
    (actC3.undo (actC3.do' dC3).1).1.accept = dC3.accept
    ∧ (actC3.undo (actC3.do' dC3).1).1.tag = dC3.tag
    ∧ (actC3.undo (actC3.do' dC3).1).1.interpolate = dC3.interpolate
    ∧ (actC3.undo (actC3.do' dC3).1).1.path = dC3.path
    ∧ (actC3.undo (actC3.do' dC3).1).1.bad_channels = dC3.bad_channels :=
  C3_do_undo_round_trip dC3 actC3 0 rfl (by decide) (by decide) (by decide)
    (by decide) (by decide) (by decide) (by decide)
    (fun q hq => ⟨"a.txt", rfl, by decide⟩) (by decide) (by decide)

/-- The helper `_process_saved_change` only updates `doc.saved`, so the `is_saved`
status of the result equals that of the input. -/
lemma process_saved_change_is_saved (h : History) (was : Bool) :
    (h.process_saved_change was).1.is_saved = h.is_saved := by
  unfold History.process_saved_change
  split <;> simp [History.is_saved]

/-- The helper `_process_saved_change` does not touch the document's path. -/
lemma process_saved_change_doc_path (h : History) (was : Bool) :
    (h.process_saved_change was).1.doc.path = h.doc.path := by
  unfold History.process_saved_change
  split <;> simp

/-- A history whose watermark equals its current position reports saved. -/
lemma saved_idx_self_is_saved (h : History)
    (hs : h.saved = (h.hist.length : Int) + h.last) : h.is_saved = true := by
  simp [History.is_saved, hs]

/-- State equations for `register_save`. -/
lemma register_save_state (h : History) :
    (h.register_save).1.hist = h.hist
    ∧ (h.register_save).1.last = h.last
    ∧ (h.register_save).1.saved = (h.hist.length : Int) + h.last
    ∧ (h.register_save).1.doc.path = h.doc.path := by
  unfold History.register_save
  refine ⟨?_, ?_, ?_, ?_⟩
  · rw [(process_saved_change_state _ _).1]
  · rw [(process_saved_change_state _ _).2.1]
  · rw [(process_saved_change_state _ _).2.2]
  · rw [process_saved_change_doc_path]

/-- After `register_save` the history reports saved. -/
lemma register_save_is_saved (h : History) :
    (h.register_save).1.is_saved = true := by
  unfold History.register_save
  rw [process_saved_change_is_saved]
  exact saved_idx_self_is_saved _ rfl

/-- When the document's saved flag agrees with the `was` argument,
`_process_saved_change` leaves it equal to the current saved status. -/
lemma process_saved_change_doc_saved (h : History) (was : Bool)
    (hsync : h.doc.saved = was) :
    (h.process_saved_change was).1.doc.saved = h.is_saved := by
  unfold History.process_saved_change
  split
  · simp
  · rename_i hc
    push_neg at hc
    simp only
    rw [hsync]
    exact hc.symm

/-- After `register_save` the document's saved flag is set, provided it
was in sync with the history before (as it is in every reachable
state). -/
lemma register_save_doc_saved (h : History)
    (hsync : h.doc.saved = h.is_saved) :
    (h.register_save).1.doc.saved = true := by
  unfold History.register_save
  rw [process_saved_change_doc_saved
        { h with saved := (h.hist.length : Int) + h.last } h.is_saved hsync]
  exact saved_idx_self_is_saved _ rfl

/-- The status `is_saved` is false whenever the watermark differs from the current
position, unless the state is the "initial and never saved" one. -/
lemma is_saved_false_of_ne (h : History)
    (hne : h.saved ≠ (h.hist.length : Int) + h.last)
    (hsp : (h.hist.length : Int) + h.last = -1 → 0 ≤ h.saved) :
    h.is_saved = false := by
  simp only [History.is_saved]
  split_ifs with hcond
  · obtain ⟨hc1, hc2⟩ := hcond
    have := hsp hc1
    omega
  · simp only [decide_eq_false_iff_not]
    omega

/-- Executing a new action always moves the history away from the saved
position: if the watermark equals the current position, it no longer does
afterwards. -/
lemma do_not_saved (h : History) (a : ChangeAction) (hInv : h.Inv)
    (hsv : h.saved = (h.hist.length : Int) + h.last) :
    (h.do' a).1.is_saved = false := by
  obtain ⟨hl1, hl2⟩ := hInv
  unfold History.do'
  rw [process_saved_change_is_saved]
  by_cases hl : h.last < -1
  · simp only [if_pos hl]
    refine is_saved_false_of_ne _ ?_ ?_
    · simp only [List.length_append, List.length_take, List.length_cons,
        List.length_nil]
      split_ifs <;> omega
    · simp only [List.length_append, List.length_take, List.length_cons,
        List.length_nil]
      split_ifs <;> (intro hci; omega)
  · simp only [if_neg hl]
    refine is_saved_false_of_ne _ ?_ ?_
    · simp only [List.length_append, List.length_cons, List.length_nil]
      omega
    · simp only [List.length_append, List.length_cons, List.length_nil]
      intro hci
      omega

/-- An executing `undo` moves the history away from the saved position. -/
lemma undo_not_saved (h : History) (hInv : h.Inv)
    (hsv : h.saved = (h.hist.length : Int) + h.last)
    (hex : (h.undo).err = none) :
    (h.undo).history.is_saved = false := by
  obtain ⟨hl1, hl2⟩ := hInv
  by_cases hc : -h.last > (h.hist.length : Int)
  · exfalso
    simp [History.undo, if_pos hc] at hex
  · simp only [History.undo, if_neg hc]
    rw [process_saved_change_is_saved]
    refine is_saved_false_of_ne _ ?_ ?_
    · show h.saved ≠ (h.hist.length : Int) + (h.last - 1)
      omega
    · show (h.hist.length : Int) + (h.last - 1) = -1 → 0 ≤ h.saved
      intro hci
      omega

/-- An executing `redo` moves the history away from the saved position. -/
lemma redo_not_saved (h : History) (hInv : h.Inv)
    (hsv : h.saved = (h.hist.length : Int) + h.last)
    (hex : (h.redo).err = none) :
    (h.redo).history.is_saved = false := by
  obtain ⟨hl1, hl2⟩ := hInv
  by_cases hc : h.last = -1
  · exfalso
    simp [History.redo, if_pos hc] at hex
  · simp only [History.redo, if_neg hc]
    rw [process_saved_change_is_saved]
    refine is_saved_false_of_ne _ ?_ ?_
    · show h.saved ≠ (h.hist.length : Int) + (h.last + 1)
      omega
    · show (h.hist.length : Int) + (h.last + 1) = -1 → 0 ≤ h.saved
      intro hci
      omega

/-- A successful `FileModel.save` is exactly `register_save`. -/
lemma save_ok_eq (h : History) (r : History × List Notif)
    (hr : FileModel.save h = .ok r) : r = h.register_save := by
  unfold FileModel.save at hr
  cases hds : h.doc.save with
  | error e => rw [hds] at hr; simp at hr
  | ok u =>
    rw [hds] at hr
    simp only [Except.ok.injEq] at hr
    exact hr.symm

/-- A successful `FileModel.save_as` registers the save on the history
whose document carries the normalized path. -/
lemma save_as_ok_fst (h : History) (p : String) (r2 : History × List Notif)
    (hr : FileModel.save_as h p = .ok r2) :
    r2.1 = ({ h with doc := (h.doc.set_path p).1 } : History).register_save.1 := by
  simp only [FileModel.save_as] at hr
  cases hs : FileModel.save { h with doc := (h.doc.set_path p).1 } with
  | error e => rw [hs] at hr; simp at hr
  | ok rr =>
    rw [hs] at hr
    simp only [Except.ok.injEq] at hr
    have hrr := save_ok_eq _ _ hs
    rw [← hr]
    simp [hrr]

/-- The result of `save_as (History.init d0) "foo"` as an observable
value: `some` of the resulting path on success. -/
def c6res : Option (Option String) :=
  match FileModel.save_as (History.init d0) "foo" with
  | .ok r => some r.1.doc.path
  | .error _ => none

/-- C6 counterexample.  `save_as "foo"` succeeds but leaves `doc.path` at
"foo.txt", not at the given path "foo": `Document.set_path` appends ".txt"
when the given path has no extension. -/
theorem C6_counterexample :
    c6res = some (some "foo.txt") ∧ some "foo.txt" ≠ some "foo" :=
  ⟨by decide, by decide⟩

/-- C6 (amended).  After a successful `FileModel.save()` the history
reports saved and (in every reachable state, where `doc.saved` is in sync
with the history) `doc.saved` is true; the saved status turns false on the
next `do()` and on the next executing `undo()` or `redo()` (each of which
moves the history away from the saved position).  After a successful
`FileModel.save_as(path)`, `doc.path` equals the given path after the
`set_path` extension normalization (the path itself when it has an
extension, otherwise with ".txt" appended) and the history reports
saved. -/
theorem C6_save_marks_saved (h : History) (p : String) (a : ChangeAction)
    (hInv : h.Inv) (hsync : h.doc.saved = h.is_saved) :
    (∀ r, FileModel.save h = .ok r →
        r.1.is_saved = true
        ∧ r.1.doc.saved = true
        ∧ (r.1.do' a).1.is_saved = false
        ∧ ((r.1.undo).err = none → (r.1.undo).history.is_saved = false)
        ∧ ((r.1.redo).err = none → (r.1.redo).history.is_saved = false))
    ∧ (∀ r2, FileModel.save_as h p = .ok r2 →
        r2.1.doc.path = some (normPath p) ∧ r2.1.is_saved = true) := by
  constructor
  · intro r hr
    have hreq : r = h.register_save := save_ok_eq h r hr
    subst hreq
    have hrst := register_save_state h
    have hInv2 : (h.register_save).1.Inv := Inv_register_save h hInv
    have hsv : (h.register_save).1.saved
        = ((h.register_save).1.hist.length : Int) + (h.register_save).1.last := by
      rw [hrst.1, hrst.2.1, hrst.2.2.1]
    exact ⟨register_save_is_saved h, register_save_doc_saved h hsync,
      do_not_saved _ a hInv2 hsv,
      fun he => undo_not_saved _ hInv2 hsv he,
      fun he => redo_not_saved _ hInv2 hsv he⟩
  · intro r2 hr2
    have h2 := save_as_ok_fst h p r2 hr2
    constructor
    · rw [h2, (register_save_state _).2.2.2]
      rfl
    · rw [h2]
      exact register_save_is_saved _

/-- A history over a document that already has a saveable path. -/
def h6 : History := History.init { d0 with path := some "a.txt" }

theorem C6_witness :
    (∀ r, FileModel.save h6 = .ok r →
        r.1.is_saved = true
        ∧ r.1.doc.saved = true
        ∧ (r.1.do' actB).1.is_saved = false
        ∧ ((r.1.undo).err = none → (r.1.undo).history.is_saved = false)
        ∧ ((r.1.redo).err = none → (r.1.redo).history.is_saved = false))
    ∧ (∀ r2, FileModel.save_as h6 "b" = .ok r2 →
        r2.1.doc.path = some (normPath "b") ∧ r2.1.is_saved = true) :=
  C6_save_marks_saved h6 "b" actB ⟨by decide, by decide⟩ (by decide)

/-- C7 counterexample.  `History.undo` on a fresh history signals an error
to its caller: it raises `RuntimeError` ("We are at the beginning of the
history") rather than showing a GUI message dialog. -/
theorem C7_counterexample :
    ((History.init d0).undo).err = some "We are at the beginning of the history"
    ∧ ((History.init d0).undo).err ≠ none :=
  ⟨by decide, by decide⟩

/-- C7 (amended).  Errors are not only surfaced as GUI message dialogs:
`History.undo()` and `History.redo()` signal history-boundary violations
by raising `RuntimeError`, which escapes to the caller. -/
theorem C7_raise_escapes (h : History) (hInv : h.Inv) :
    (h.can_undo = false →
        (h.undo).err = some "We are at the beginning of the history")
    ∧ (h.can_redo = false →
        (h.redo).err = some "We are at the tip of the history") := by
  obtain ⟨hl1, hl2⟩ := hInv
  constructor
  · intro hcu
    have hc : -h.last > (h.hist.length : Int) := by
      simp only [History.can_undo, decide_eq_false_iff_not] at hcu
      omega
    simp only [History.undo, if_pos hc]
  · intro hcr
    have hc : h.last = -1 := by
      simp only [History.can_redo, decide_eq_false_iff_not] at hcr
      omega
    simp only [History.redo, if_pos hc]

theorem C7_witness :
    ((History.init d0).can_undo = false →
        ((History.init d0).undo).err
          = some "We are at the beginning of the history")
    ∧ ((History.init d0).can_redo = false →
        ((History.init d0).redo).err
          = some "We are at the tip of the history") :=
  C7_raise_escapes (History.init d0) ⟨by decide, by decide⟩

end Eelbrain
